import Mathlib

/-!
Shallow embedding of `src/App.tsx` (the `CpuSimulator` React component): the
seed memory table `INITIAL_MEMORY`, the scenario script `scenarioSteps`, the
playback handlers `handleNext` / `handlePrev` / `handleReset`, and the
per-cell highlighting predicates `isTarget` / `isAddressed`.

JavaScript object aliasing is modelled explicitly.  The component state
`memory` holds an array of references to `MemoryCell` objects; the array is
initially the module constant `INITIAL_MEMORY` itself
(`useState<MemoryCell[]>(INITIAL_MEMORY)`).  `handleNext` copies the array
shallowly (`const newMemory = [...memory]`, which preserves the identity of
the cell objects) and mutates the found cell in place
(`cell.content = update.value`), and `handlePrev` / `handleReset` re-install
the `INITIAL_MEMORY` array via `setMemory(INITIAL_MEMORY)`.  No code ever
creates a new cell object, so every array ever stored in `memory` (and
`INITIAL_MEMORY` itself) contains the very same eight cell objects in the
authored order, and their mutable `content` fields form a shared heap.  We
represent a cell reference by its index `0..7` in the `INITIAL_MEMORY`
literal, the heap by the list of the eight current `content` strings, and
the array currently held in the `memory` state by its list of references.
-/

namespace CpuSim

/-- `type: 'instruction' | 'data' | 'empty'` of a `MemoryCell`. -/
inductive CellType where
  | instruction
  | data
  | empty
  deriving DecidableEq

/-- The `MemoryCell` record type of the source. -/
structure MemoryCell where
  address : Nat
  content : String
  type : CellType
  description : Option String
  deriving DecidableEq

/-- The `phase` field of a `Step`. -/
inductive Phase where
  | FETCH
  | DECODE
  | EXECUTE
  | IDLE
  deriving DecidableEq

/-- The `busActive` field of a `Step` (`null` is `none`): a transfer of
`value` between endpoints `from` and `to`.  `from` is a reserved word in
Lean, so the endpoints are named `bfrom` / `bto`. -/
structure BusActive where
  bfrom : String
  bto : String
  value : String
  deriving DecidableEq

/-- One `address` / `value` entry of a step's `memoryUpdates`. -/
structure MemUpdate where
  address : Nat
  value : String
  deriving DecidableEq

/-- The `Step` record type of the source.  Optional fields are `Option`;
`busActive: ... | null` is `none` for `null`. -/
structure Step where
  id : Nat
  phase : Phase
  title : String
  message : String
  activeComponents : List String
  busActive : Option BusActive
  pc : Option Nat
  ir : Option String
  acc : Option Nat
  mar : Option Nat
  mdr : Option String
  aluOperation : Option String
  memoryUpdates : Option (List MemUpdate)
  deriving DecidableEq

/-- `INITIAL_MEMORY`: the seed table, exactly as authored in the source. -/
def INITIAL_MEMORY : List MemoryCell := [
  ⟨0, "LOAD 10", CellType.instruction, some "データ読込"⟩,
  ⟨1, "ADD 11", CellType.instruction, some "加算"⟩,
  ⟨2, "STORE 12", CellType.instruction, some "保存"⟩,
  ⟨3, "HALT", CellType.instruction, some "終了"⟩,
  ⟨4, "0000", CellType.empty, none⟩,
  ⟨10, "3", CellType.data, some "データA"⟩,
  ⟨11, "5", CellType.data, some "データB"⟩,
  ⟨12, "0", CellType.data, some "結果格納用"⟩]

/-- Step 0 of `scenarioSteps`. -/
def step0 : Step :=
  ⟨0, Phase.IDLE, "シミュレーション開始",
   "CPUの仕組みを学習しましょう。右側がメモリ、左側がCPUです。現在は初期状態です。これからプログラムを実行して「3 + 5」の計算を行います。",
   [], none, some 0, some "", some 0, none, none, none, none⟩

/-- Step 1 of `scenarioSteps`. -/
def step1 : Step :=
  ⟨1, Phase.FETCH, "命令フェッチ (アドレス指定)",
   "まず、次に実行すべき命令がどこにあるかを確認します。「プログラムカウンタ(PC)」は「0番地」を指していますね。",
   ["PC", "AddressBus", "Memory"], some ⟨"PC", "Memory", "0"⟩,
   some 0, some "", some 0, none, none, none, none⟩

/-- Step 2 of `scenarioSteps`. -/
def step2 : Step :=
  ⟨2, Phase.FETCH, "命令フェッチ (命令取出し)",
   "メモリの0番地から命令を取り出します。「LOAD 10」という命令が、データバスを通ってCPUの「命令レジスタ(IR)」へ運ばれます。",
   ["Memory", "DataBus", "IR"], some ⟨"Memory", "IR", "LOAD 10"⟩,
   some 0, some "LOAD 10", some 0, none, none, none, none⟩

/-- Step 3 of `scenarioSteps`. -/
def step3 : Step :=
  ⟨3, Phase.FETCH, "PC更新",
   "命令を取り出したので、プログラムカウンタ(PC)を自動的に1つ進めます。これで次の準備もOKです。",
   ["PC"], none, some 1, some "LOAD 10", some 0, none, none, none, none⟩

/-- Step 4 of `scenarioSteps`. -/
def step4 : Step :=
  ⟨4, Phase.DECODE, "命令解読 (デコード)",
   "制御装置が「LOAD 10」を解読します。「10番地のデータを、作業机(アキュムレータ)に持ってこい」という命令ですね。",
   ["CU", "IR"], none, some 1, some "LOAD 10", some 0, none, none, none, none⟩

/-- Step 5 of `scenarioSteps`. -/
def step5 : Step :=
  ⟨5, Phase.EXECUTE, "実行 (データ読出し)",
   "10番地のデータを読みに行きます。メモリの10番地には「3」が入っています。",
   ["CU", "AddressBus", "Memory"], some ⟨"CU", "Memory", "10"⟩,
   some 1, some "LOAD 10", some 0, none, none, none, none⟩

/-- Step 6 of `scenarioSteps`. -/
def step6 : Step :=
  ⟨6, Phase.EXECUTE, "実行 (データ格納)",
   "データ「3」がデータバスを通って、アキュムレータ(ACC)に置かれました。これで計算の準備第一段階が完了です。",
   ["Memory", "DataBus", "ACC"], some ⟨"Memory", "ACC", "3"⟩,
   some 1, some "LOAD 10", some 3, none, none, none, none⟩

/-- Step 7 of `scenarioSteps`. -/
def step7 : Step :=
  ⟨7, Phase.FETCH, "命令フェッチ (アドレス指定)",
   "さあ、次の命令に進みます。PCは「1番地」を指しています。",
   ["PC", "AddressBus", "Memory"], some ⟨"PC", "Memory", "1"⟩,
   some 1, some "", some 3, none, none, none, none⟩

/-- Step 8 of `scenarioSteps`. -/
def step8 : Step :=
  ⟨8, Phase.FETCH, "命令フェッチ (命令取出し)",
   "1番地の命令「ADD 11」を取り出して、命令レジスタに入れます。",
   ["Memory", "DataBus", "IR"], some ⟨"Memory", "IR", "ADD 11"⟩,
   some 1, some "ADD 11", some 3, none, none, none, none⟩

/-- Step 9 of `scenarioSteps`. -/
def step9 : Step :=
  ⟨9, Phase.FETCH, "PC更新", "PCを「2」に進めます。",
   ["PC"], none, some 2, some "ADD 11", some 3, none, none, none, none⟩

/-- Step 10 of `scenarioSteps`. -/
def step10 : Step :=
  ⟨10, Phase.DECODE, "命令解読 (デコード)",
   "制御装置(監督)が考えます。「ADD…これは足し算だ！演算装置(計算係)、準備してくれ！相手は11番地のデータだ！」",
   ["CU", "IR", "ALU"], none, some 2, some "ADD 11", some 3, none, none, none, none⟩

/-- Step 11 of `scenarioSteps`. -/
def step11 : Step :=
  ⟨11, Phase.EXECUTE, "実行 (オペランド読出し)",
   "計算相手のデータを呼び寄せます。11番地には「5」が入っていますね。",
   ["CU", "AddressBus", "Memory"], some ⟨"CU", "Memory", "11"⟩,
   some 2, some "ADD 11", some 3, none, none, none, none⟩

/-- Step 12 of `scenarioSteps`. -/
def step12 : Step :=
  ⟨12, Phase.EXECUTE, "実行 (演算処理)",
   "データ「5」が演算装置に届きました！元々あった「3」と、今来た「5」を合体させます！",
   ["Memory", "DataBus", "ALU"], some ⟨"Memory", "ALU", "5"⟩,
   some 2, some "ADD 11", some 3, none, none, some "3 + 5", none⟩

/-- Step 13 of `scenarioSteps`. -/
def step13 : Step :=
  ⟨13, Phase.EXECUTE, "実行 (結果書込み)",
   "計算完了！ 3 + 5 = 8 です。結果の「8」がアキュムレータに上書きされます。",
   ["ALU", "ACC"], some ⟨"ALU", "ACC", "8"⟩,
   some 2, some "ADD 11", some 8, none, none, some "Done", none⟩

/-- Step 14 of `scenarioSteps`. -/
def step14 : Step :=
  ⟨14, Phase.FETCH, "命令フェッチ",
   "計算結果を保存しましょう。PCは「2番地」を指しています。",
   ["PC", "AddressBus", "Memory"], some ⟨"PC", "Memory", "2"⟩,
   some 2, some "", some 8, none, none, none, none⟩

/-- Step 15 of `scenarioSteps`. -/
def step15 : Step :=
  ⟨15, Phase.FETCH, "命令フェッチ", "「STORE 12」命令を取り出します。",
   ["Memory", "DataBus", "IR"], some ⟨"Memory", "IR", "STORE 12"⟩,
   some 2, some "STORE 12", some 8, none, none, none, none⟩

/-- Step 16 of `scenarioSteps`. -/
def step16 : Step :=
  ⟨16, Phase.FETCH, "PC更新", "PCを「3」に進めます。",
   ["PC"], none, some 3, some "STORE 12", some 8, none, none, none, none⟩

/-- Step 17 of `scenarioSteps`. -/
def step17 : Step :=
  ⟨17, Phase.DECODE, "命令解読",
   "「STORE 12」…これは「今の値を12番地に書き込め」という命令です。",
   ["CU", "IR"], none, some 3, some "STORE 12", some 8, none, none, none, none⟩

/-- Step 18 of `scenarioSteps`. -/
def step18 : Step :=
  ⟨18, Phase.EXECUTE, "実行 (データ書込み)",
   "アキュムレータにある「8」を、データバスを通じてメモリの12番地に送ります。",
   ["ACC", "DataBus", "AddressBus", "Memory"], some ⟨"ACC", "Memory", "8"⟩,
   some 3, some "STORE 12", some 8, none, none, none, some [⟨12, "8"⟩]⟩

/-- Step 19 of `scenarioSteps`. -/
def step19 : Step :=
  ⟨19, Phase.IDLE, "完了",
   "これで一連の処理が完了しました。メモリの12番地に正しく「8」が保存されましたね。",
   ["Memory"], none, some 3, some "HALT", some 8, none, none, none, none⟩

/-- `scenarioSteps`: the authored script, in order. -/
def scenarioSteps : List Step :=
  [step0, step1, step2, step3, step4, step5, step6, step7, step8, step9,
   step10, step11, step12, step13, step14, step15, step16, step17, step18, step19]

/-- A reference to one of the eight cell objects of the `INITIAL_MEMORY`
array literal, identified by its index in that literal (see the module
doc-string: no handler ever creates a cell object, so these eight are the
only ones). -/
abbrev CellRef := Nat

/-- The list of references making up the `INITIAL_MEMORY` array itself —
also the array initially stored in the `memory` React state. -/
def seedRefs : List CellRef := List.range INITIAL_MEMORY.length

/-- The immutable `address` field of the cell object `r` (no handler ever
writes `address`, `type` or `description`; only `content` is mutated). -/
def cellAddress (r : CellRef) : Nat :=
  (INITIAL_MEMORY.map (fun c => c.address)).getD r 0

/-- The component state: `currentStepIndex`, the array of cell references
currently held in the `memory` state, the shared mutable `content` fields of
the eight cell objects, and `isAnimating`. -/
structure SimState where
  currentStepIndex : Nat
  memoryArr : List CellRef
  heap : List String
  isAnimating : Bool
  deriving DecidableEq

/-- The initial component state:
`useState(0)`, `useState<MemoryCell[]>(INITIAL_MEMORY)`, `useState(false)`. -/
def initState : SimState :=
  ⟨0, seedRefs, INITIAL_MEMORY.map (fun c => c.content), false⟩

/-- `arr.find(m => m.address === a)`: the first cell object in the array
whose (immutable) address is `a`. -/
def findRef (arr : List CellRef) (a : Nat) : Option CellRef :=
  arr.find? (fun r => cellAddress r == a)

/-- One iteration of the `forEach` body in `handleNext`:
`const cell = newMemory.find(m => m.address === update.address);`
`if (cell) cell.content = update.value;` — the write mutates the shared cell
object, i.e. the heap. -/
def applyUpdate (arr : List CellRef) (heap : List String) (u : MemUpdate) : List String :=
  match findRef arr u.address with
  | some r => heap.set r u.value
  | none => heap

/-- `nextStep.memoryUpdates.forEach(...)`, in list order.  The `find` runs
over `newMemory`, whose references never change during the loop (only the
cells' `content` fields do, and `find` reads only `address`). -/
def applyUpdates (arr : List CellRef) (heap : List String) (us : List MemUpdate) : List String :=
  us.foldl (fun h u => applyUpdate arr h u) heap

/-- `handleNext`.  The shallow copy `[...memory]` preserves the cell
references, so `setMemory(newMemory)` leaves the reference list unchanged;
the in-place `cell.content = update.value` writes go to the shared heap.
`setIsAnimating(true)` is modelled; the cosmetic 1-second timeout that flips
it back is not (no claim mentions it).  The `none` branch of the script
lookup is unreachable (`nextIndex < scenarioSteps.length` inside the guard). -/
def handleNext (s : SimState) : SimState :=
  if s.currentStepIndex < scenarioSteps.length - 1 then
    match scenarioSteps[s.currentStepIndex + 1]? with
    | none => s
    | some nextStep =>
      match nextStep.memoryUpdates with
      | some updates =>
          ⟨s.currentStepIndex + 1, s.memoryArr, applyUpdates s.memoryArr s.heap updates, true⟩
      | none => ⟨s.currentStepIndex + 1, s.memoryArr, s.heap, true⟩
  else s

/-- `handlePrev`.  The guard `currentStepIndex <= 18` reads the closure's
(pre-decrement) index.  `setMemory(INITIAL_MEMORY)` re-installs the
`INITIAL_MEMORY` array — which holds the same (possibly mutated) cell
objects, so the heap is untouched.  The local `const newMem =
[...INITIAL_MEMORY]` in the source is computed and never used. -/
def handlePrev (s : SimState) : SimState :=
  if s.currentStepIndex > 0 then
    if s.currentStepIndex ≤ 18 then
      ⟨s.currentStepIndex - 1, seedRefs, s.heap, s.isAnimating⟩
    else
      ⟨s.currentStepIndex - 1, s.memoryArr, s.heap, s.isAnimating⟩
  else s

/-- `handleReset`: `setCurrentStepIndex(0); setMemory(INITIAL_MEMORY);
setIsAnimating(false)`.  Re-installing the `INITIAL_MEMORY` array does not
restore the cells' `content` fields: they live in the shared heap. -/
def handleReset (s : SimState) : SimState :=
  ⟨0, seedRefs, s.heap, false⟩

/-- One user action on the playback controls. -/
inductive SimAction where
  | next
  | prev
  | reset
  deriving DecidableEq

/-- Apply one action via the corresponding handler. -/
def applyAction (s : SimState) : SimAction → SimState
  | SimAction.next => handleNext s
  | SimAction.prev => handlePrev s
  | SimAction.reset => handleReset s

/-- Run a sequence of actions from the initial state. -/
def runActions (acts : List SimAction) : SimState :=
  acts.foldl applyAction initState

/-- The memory rows exactly as the view renders them: dereference each cell
object in the current `memory` array (`address` / `type` / `description` are
the authored ones; `content` comes from the shared heap). -/
def memCells (s : SimState) : List MemoryCell :=
  s.memoryArr.filterMap (fun r =>
    (INITIAL_MEMORY[r]?).map (fun c => ⟨c.address, s.heap.getD r c.content, c.type, c.description⟩))

/-- The `content` of the first cell with address `a` in the current
`memory` array (`memory.find(m => m.address === a)` followed by reading the
shared `content` field), or `none` if no such cell exists. -/
def memContentAt (s : SimState) (a : Nat) : Option String :=
  (findRef s.memoryArr a).map (fun r => s.heap.getD r "")

/-- The `content` of the first cell with address `a` in a plain cell list. -/
def contentAt (mem : List MemoryCell) (a : Nat) : Option String :=
  (mem.find? (fun c => c.address == a)).map (fun c => c.content)

/-- Overwrite the `content` of the first cell with address `a` in a plain
cell list (no-op when the address is absent). -/
def setContentAt : List MemoryCell → Nat → String → List MemoryCell
  | [], _, _ => []
  | c :: rest, a, v =>
      if c.address == a then ⟨c.address, v, c.type, c.description⟩ :: rest
      else c :: setContentAt rest a v

/-- The `memoryUpdates` of the step at index `i` (empty when the step has
none, or when `i` is out of range). -/
def stepUpdates (i : Nat) : List MemUpdate :=
  ((scenarioSteps[i]?).bind (fun st => st.memoryUpdates)).getD []

/-- The value of the last update with address `a` in an update list, if
any — "last write per address wins". -/
def lastUpdateValue : List MemUpdate → Nat → Option String
  | [], _ => none
  | u :: us, a =>
      match lastUpdateValue us a with
      | some v => some v
      | none => if u.address = a then some u.value else none

/-- The memory that the spec's §3 invariant (claim C1) prescribes at
position `p`: the seed table with the `memoryUpdates` of steps `1..p`
applied in step order, last write per address winning. -/
def replayMemory (p : Nat) : List MemoryCell :=
  (List.range p).foldl
    (fun mem i => (stepUpdates (i + 1)).foldl (fun m u => setContentAt m u.address u.value) mem)
    INITIAL_MEMORY

/-- `isActive`: `step.activeComponents.includes(compName)`. -/
def isActive (st : Step) (compName : String) : Bool :=
  st.activeComponents.contains compName

/-- The `isTarget` per-cell predicate of the render loop, clause for clause:
optional chaining on a `null` `busActive` yields `undefined`, so each
comparison conjunct is `false` when there is no transfer, and a missing
`memoryUpdates` contributes a falsy last disjunct. -/
def isTarget (st : Step) (cell : MemoryCell) : Bool :=
  isActive st "Memory" &&
    ((match st.busActive with
      | some b => b.bto == "Memory" && b.value == cell.content
      | none => false) ||
     (match st.busActive with
      | some b => b.bfrom == "Memory" && b.value == cell.content
      | none => false) ||
     (match st.busActive with
      | some b => b.bfrom == "CU" && b.value == toString cell.address
      | none => false) ||
     (match st.busActive with
      | some b => b.bfrom == "PC" && b.value == toString cell.address
      | none => false) ||
     (match st.memoryUpdates with
      | some us => us.any (fun u => u.address == cell.address)
      | none => false))

/-- The `isAddressed` per-cell predicate of the render loop:
`String(step.busActive?.value)` is the transfer value, or the string
`"undefined"` when `busActive` is `null`. -/
def isAddressed (st : Step) (cell : MemoryCell) : Bool :=
  isActive st "AddressBus" &&
    ((match st.busActive with
      | some b => b.value
      | none => "undefined") == toString cell.address)

/-- The combined per-cell highlighting condition the view uses:
`isAddressed || isTarget`. -/
def cellHighlighted (st : Step) (cell : MemoryCell) : Bool :=
  isAddressed st cell || isTarget st cell

/-- The bus-targeting predicate exactly as claim C9 words it: (a) the
transfer's value equals the cell's address string when the transfer
originates from `PC` or `CU` or the address bus is active; or (b) the
transfer has `Memory` as its from- or to-endpoint and its value equals the
cell's content; or (c) the cell's address appears in the step's
`memoryUpdates`. -/
def claimBusTargeting (st : Step) (cell : MemoryCell) : Bool :=
  (match st.busActive with
   | some b =>
       ((b.bfrom == "PC" || b.bfrom == "CU" || isActive st "AddressBus") &&
          b.value == toString cell.address) ||
       ((b.bfrom == "Memory" || b.bto == "Memory") && b.value == cell.content)
   | none => false) ||
  (match st.memoryUpdates with
   | some us => us.any (fun u => u.address == cell.address)
   | none => false)

/-- Claim C1 (code bug): the §3 replay invariant fails on the code.  After
18 advances and one retreat the position is 17 and the invariant prescribes
the untouched seed table (address 12 holding "0"), but the simulator shows
"8" at address 12: the in-place write of the STORE step also mutated the
cell object shared with `INITIAL_MEMORY`, so `handlePrev`'s
`setMemory(INITIAL_MEMORY)` restores nothing. -/
theorem c1_memory_invariant_violated :
    (runActions (List.replicate 18 SimAction.next ++ [SimAction.prev])).currentStepIndex = 17 ∧
    memContentAt (runActions (List.replicate 18 SimAction.next ++ [SimAction.prev])) 12 = some "8" ∧
    contentAt (replayMemory 17) 12 = some "0" ∧
    memCells (runActions (List.replicate 18 SimAction.next ++ [SimAction.prev])) ≠ replayMemory 17 := by
  decide

/-- Claim C2 (code bug): `handleReset` restores `position = 0` but not the
authored seed contents.  After 18 advances and a reset, address 12 still
shows "8", not the authored "0": `setMemory(INITIAL_MEMORY)` re-installs an
array whose shared cell objects were already mutated by the STORE step. -/
theorem c2_reset_leaves_stale_memory :
    (runActions (List.replicate 18 SimAction.next ++ [SimAction.reset])).currentStepIndex = 0 ∧
    memContentAt (runActions (List.replicate 18 SimAction.next ++ [SimAction.reset])) 12 = some "8" ∧
    contentAt INITIAL_MEMORY 12 = some "0" ∧
    memCells (runActions (List.replicate 18 SimAction.next ++ [SimAction.reset])) ≠ INITIAL_MEMORY := by
  decide

/-- Claim C3 (code bug): the advance/retreat round trip from the reachable
position-17 state restores the position but not the memory: address 12
holds "0" before the pair and "8" after it. -/
theorem c3_roundtrip_memory_not_restored :
    (runActions (List.replicate 17 SimAction.next)).currentStepIndex = 17 ∧
    memContentAt (runActions (List.replicate 17 SimAction.next)) 12 = some "0" ∧
    (handlePrev (handleNext (runActions (List.replicate 17 SimAction.next)))).currentStepIndex = 17 ∧
    memContentAt (handlePrev (handleNext (runActions (List.replicate 17 SimAction.next)))) 12 = some "8" := by
  decide

/-- Claim C4 (confirmed): from the initial state (position 0, whose step
has `pc = 0`, `acc = 0`, `ir = ""`), after 6 advances the current step has
`acc = 3`; after 13 advances `acc = 8`; after 18 advances the cell at
address 12 holds "8"; and after one further advance to the final step it
still holds "8". -/
theorem c4_concrete_scenario :
    (initState.currentStepIndex = 0 ∧
     (scenarioSteps[0]?).bind (fun st => st.pc) = some 0 ∧
     (scenarioSteps[0]?).bind (fun st => st.acc) = some 0 ∧
     (scenarioSteps[0]?).bind (fun st => st.ir) = some "") ∧
    (scenarioSteps[(runActions (List.replicate 6 SimAction.next)).currentStepIndex]?).bind
      (fun st => st.acc) = some 3 ∧
    (scenarioSteps[(runActions (List.replicate 13 SimAction.next)).currentStepIndex]?).bind
      (fun st => st.acc) = some 8 ∧
    memContentAt (runActions (List.replicate 18 SimAction.next)) 12 = some "8" ∧
    ((runActions (List.replicate 19 SimAction.next)).currentStepIndex = scenarioSteps.length - 1 ∧
     memContentAt (runActions (List.replicate 19 SimAction.next)) 12 = some "8") := by
  decide

/-- Claim C6 (confirmed): `handleNext` at the last position is a complete
no-op — the guard `currentStepIndex < scenarioSteps.length - 1` fails, so the
whole state (position and memory included) is unchanged. -/
theorem c6_advance_at_end_noop (s : SimState)
    (h : s.currentStepIndex = scenarioSteps.length - 1) : handleNext s = s := by
  unfold handleNext
  rw [h]
  simp

/-- Witness for C6 at the state reached by 19 advances. -/
theorem c6_advance_at_end_noop_witness :
    (runActions (List.replicate 19 SimAction.next)).currentStepIndex = scenarioSteps.length - 1 ∧
    handleNext (runActions (List.replicate 19 SimAction.next)) =
      runActions (List.replicate 19 SimAction.next) :=
  ⟨by decide, c6_advance_at_end_noop _ (by decide)⟩

/-- Claim C7 (confirmed): `handlePrev` at position 0 is a complete no-op —
the guard `currentStepIndex > 0` fails, so the whole state (position and
memory included) is unchanged. -/
theorem c7_retreat_at_start_noop (s : SimState)
    (h : s.currentStepIndex = 0) : handlePrev s = s := by
  unfold handlePrev
  rw [h]
  simp

/-- Witness for C7 at the initial state. -/
theorem c7_retreat_at_start_noop_witness :
    initState.currentStepIndex = 0 ∧ handlePrev initState = initState :=
  ⟨rfl, c7_retreat_at_start_noop initState rfl⟩

/-- Each handler keeps the position below the script length. -/
theorem applyAction_index_lt (s : SimState) (a : SimAction)
    (h : s.currentStepIndex < scenarioSteps.length) :
    (applyAction s a).currentStepIndex < scenarioSteps.length := by
  cases a with
  | next =>
      show (handleNext s).currentStepIndex < scenarioSteps.length
      unfold handleNext
      split
      · split
        · exact h
        · split
          · show s.currentStepIndex + 1 < scenarioSteps.length
            omega
          · show s.currentStepIndex + 1 < scenarioSteps.length
            omega
      · exact h
  | prev =>
      show (handlePrev s).currentStepIndex < scenarioSteps.length
      unfold handlePrev
      split
      · split
        · show s.currentStepIndex - 1 < scenarioSteps.length
          omega
        · show s.currentStepIndex - 1 < scenarioSteps.length
          omega
      · exact h
  | reset =>
      show (0 : Nat) < scenarioSteps.length
      decide

/-- Folding any action sequence keeps the position below the script
length. -/
theorem foldl_index_lt (acts : List SimAction) :
    ∀ s : SimState, s.currentStepIndex < scenarioSteps.length →
      (acts.foldl applyAction s).currentStepIndex < scenarioSteps.length := by
  induction acts with
  | nil => intro s h; exact h
  | cons a acts ih =>
      intro s h
      exact ih (applyAction s a) (applyAction_index_lt s a h)

/-- Claim C8 (confirmed): the position starts at 0 and every reachable
state has `currentStepIndex < scenarioSteps.length`, so indexing the script at
the current position is always in range. -/
theorem c8_position_in_bounds :
    initState.currentStepIndex = 0 ∧
    ∀ acts : List SimAction, (runActions acts).currentStepIndex < scenarioSteps.length :=
  ⟨rfl, fun acts => foldl_index_lt acts initState (by decide)⟩

/-- Each handler keeps the `memory` array equal to the `INITIAL_MEMORY`
reference list: `handleNext` only re-installs the shallow copy, and
`handlePrev` / `handleReset` re-install `INITIAL_MEMORY` itself. -/
theorem applyAction_arr (s : SimState) (a : SimAction)
    (h : s.memoryArr = seedRefs) : (applyAction s a).memoryArr = seedRefs := by
  cases a with
  | next =>
      show (handleNext s).memoryArr = seedRefs
      unfold handleNext
      split
      · split
        · exact h
        · split
          · exact h
          · exact h
      · exact h
  | prev =>
      show (handlePrev s).memoryArr = seedRefs
      unfold handlePrev
      split
      · split
        · rfl
        · exact h
      · exact h
  | reset => rfl

/-- Every reachable state holds the seed reference list in `memory`. -/
theorem runActions_arr (acts : List SimAction) :
    (runActions acts).memoryArr = seedRefs := by
  suffices h : ∀ s : SimState, s.memoryArr = seedRefs →
      (acts.foldl applyAction s).memoryArr = seedRefs from
    h initState rfl
  induction acts with
  | nil => intro s h; exact h
  | cons a acts ih =>
      intro s h
      exact ih (applyAction s a) (applyAction_arr s a h)

/-- Claim C10 (confirmed): every address referenced by a `memoryUpdates`
entry of any step of the script is present in the seed table, and in every
reachable state the `find` in `handleNext` succeeds for it — the
absent-address branch is unreachable during playback. -/
theorem c10_updates_addresses_present (st : Step) (hst : st ∈ scenarioSteps)
    (u : MemUpdate) (hu : u ∈ st.memoryUpdates.getD [])
    (acts : List SimAction) :
    INITIAL_MEMORY.any (fun c => c.address == u.address) = true ∧
    (findRef (runActions acts).memoryArr u.address).isSome = true := by
  have h1 : ∀ st ∈ scenarioSteps, ∀ u ∈ st.memoryUpdates.getD [],
      INITIAL_MEMORY.any (fun c => c.address == u.address) = true ∧
        (findRef seedRefs u.address).isSome = true := by decide
  obtain ⟨ha, hb⟩ := h1 st hst u hu
  refine ⟨ha, ?_⟩
  rw [runActions_arr acts]
  exact hb

/-- Witness for C10 at the STORE step's single update and the empty action
sequence. -/
theorem c10_updates_addresses_present_witness :
    (step18 ∈ scenarioSteps ∧ (⟨12, "8"⟩ : MemUpdate) ∈ step18.memoryUpdates.getD []) ∧
    (INITIAL_MEMORY.any (fun c => c.address == (⟨12, "8"⟩ : MemUpdate).address) = true ∧
     (findRef (runActions []).memoryArr (⟨12, "8"⟩ : MemUpdate).address).isSome = true) :=
  ⟨⟨by simp [scenarioSteps], by decide⟩,
   c10_updates_addresses_present step18 (by simp [scenarioSteps]) ⟨12, "8"⟩ (by decide) []⟩

/-- Reading a list position just written by `set`. -/
theorem getD_set_self (l : List String) (i : Nat) (v d : String) (h : i < l.length) :
    (l.set i v).getD i d = v := by
  induction l generalizing i with
  | nil => simp at h
  | cons x xs ih =>
      cases i with
      | zero => rfl
      | succ n =>
          have hn : n < xs.length := by simp at h; omega
          exact ih n hn

/-- Reading a list position other than the one just written by `set`. -/
theorem getD_set_ne (l : List String) (i j : Nat) (v d : String) (hij : i ≠ j) :
    (l.set i v).getD j d = l.getD j d := by
  induction l generalizing i j with
  | nil => rfl
  | cons x xs ih =>
      cases i with
      | zero =>
          cases j with
          | zero => exact absurd rfl hij
          | succ m => rfl
      | succ n =>
          cases j with
          | zero => rfl
          | succ m => exact ih n m (fun e => hij (congrArg Nat.succ e))

/-- The content a search by address sees when the `memory` array is the
seed reference list: dereference the first cell whose address matches. -/
def lookupContent (heap : List String) (a : Nat) : Option String :=
  (findRef seedRefs a).map (fun r => heap.getD r "")

/-- Effect of one `forEach` iteration of `handleNext` on the content seen
at an arbitrary address `a`: the listed address gets the listed value if
some cell carries it, every other address is untouched, and a listed
address carried by no cell changes nothing. -/
theorem lookupContent_applyUpdate (heap : List String) (u : MemUpdate) (a : Nat)
    (hlen : heap.length = INITIAL_MEMORY.length) :
    lookupContent (applyUpdate seedRefs heap u) a =
      if u.address = a then (lookupContent heap a).map (fun _ => u.value)
      else lookupContent heap a := by
  rcases hfa : findRef seedRefs a with _ | r
  · simp only [lookupContent, hfa, Option.map_none']
    split <;> rfl
  · have hfa' : List.find? (fun r => cellAddress r == a) seedRefs = some r := hfa
    have hra : cellAddress r = a := by simpa using List.find?_some hfa'
    have hrm : r ∈ seedRefs := List.mem_of_find?_eq_some hfa'
    have hrl : r < INITIAL_MEMORY.length := by simpa [seedRefs] using hrm
    by_cases hua : u.address = a
    · have hfu : findRef seedRefs u.address = some r := by rw [hua]; exact hfa
      simp only [lookupContent, applyUpdate, hfu, hfa, if_pos hua, Option.map_some']
      exact congrArg some (getD_set_self heap r u.value "" (hlen ▸ hrl))
    · rcases hfu : findRef seedRefs u.address with _ | r2
      · simp only [lookupContent, applyUpdate, hfu, hfa, if_neg hua]
      · have hfu' : List.find? (fun r => cellAddress r == u.address) seedRefs = some r2 := hfu
        have hr2a : cellAddress r2 = u.address := by simpa using List.find?_some hfu'
        have hner : r2 ≠ r := by
          intro e
          apply hua
          rw [← hr2a, e, hra]
        simp only [lookupContent, applyUpdate, hfu, hfa, Option.map_some', if_neg hua]
        exact congrArg some (getD_set_ne heap r2 r u.value "" hner)

/-- Effect of the whole `forEach` loop on the content seen at an arbitrary
address: the last listed write to that address wins; addresses carried by no
cell stay absent. -/
theorem lookupContent_applyUpdates (us : List MemUpdate) :
    ∀ heap : List String, heap.length = INITIAL_MEMORY.length → ∀ a : Nat,
      lookupContent (applyUpdates seedRefs heap us) a =
        match lastUpdateValue us a with
        | some v => (lookupContent heap a).map (fun _ => v)
        | none => lookupContent heap a := by
  induction us with
  | nil => intro heap _ a; rfl
  | cons u us ih =>
      intro heap hlen a
      have hstep : applyUpdates seedRefs heap (u :: us) =
          applyUpdates seedRefs (applyUpdate seedRefs heap u) us := rfl
      have hlen2 : (applyUpdate seedRefs heap u).length = INITIAL_MEMORY.length := by
        unfold applyUpdate
        split
        · rw [List.length_set]; exact hlen
        · exact hlen
      rw [hstep, ih _ hlen2 a, lookupContent_applyUpdate heap u a hlen]
      rcases hl : lastUpdateValue us a with _ | v
      · simp only [lastUpdateValue, hl]
        by_cases hua : u.address = a
        · simp [hua]
        · simp [hua]
      · simp only [lastUpdateValue, hl]
        by_cases hua : u.address = a
        · simp [hua, Option.map_map]
          cases lookupContent heap a <;> rfl
        · simp [hua]

/-- `handleNext` below the last position advances the index by one. -/
theorem handleNext_index (s : SimState) (h : s.currentStepIndex < scenarioSteps.length - 1) :
    (handleNext s).currentStepIndex = s.currentStepIndex + 1 := by
  have hidx : s.currentStepIndex + 1 < scenarioSteps.length := by omega
  unfold handleNext
  rw [if_pos h]
  split
  · next heq =>
      rw [List.getElem?_eq_getElem hidx] at heq
      exact Option.noConfusion heq
  · next nextStep heq =>
      cases nextStep.memoryUpdates <;> rfl

/-- `handleNext` never changes which array of cell references is shown. -/
theorem handleNext_arrEq (s : SimState) : (handleNext s).memoryArr = s.memoryArr := by
  unfold handleNext
  split
  · split
    · rfl
    · split <;> rfl
  · rfl

/-- `handleNext` below the last position rewrites the heap by the upcoming
step's `memoryUpdates` (no updates meaning an empty list). -/
theorem handleNext_heap (s : SimState) (h : s.currentStepIndex < scenarioSteps.length - 1) :
    (handleNext s).heap =
      applyUpdates s.memoryArr s.heap (stepUpdates (s.currentStepIndex + 1)) := by
  have hidx : s.currentStepIndex + 1 < scenarioSteps.length := by omega
  unfold handleNext
  rw [if_pos h]
  split
  · next heq =>
      rw [List.getElem?_eq_getElem hidx] at heq
      exact Option.noConfusion heq
  · next nextStep heq =>
      have hsu : stepUpdates (s.currentStepIndex + 1) = nextStep.memoryUpdates.getD [] := by
        simp [stepUpdates, heq]
      rw [hsu]
      cases nextStep.memoryUpdates <;> rfl

/-- Claim C5 (confirmed): on any well-formed state below the last position,
`handleNext` increments the position by exactly one, and the content seen at
every address `a` becomes the value of the last `memoryUpdates` entry of the
step at the new position listing `a` (when a cell with address `a` exists),
is unchanged when no entry lists `a`, and stays absent (a silent no-op) when
no cell carries `a`.  Well-formed means the `memory` array is the seed
reference list and the heap has one content per seed cell — true of every
reachable state. -/
theorem c5_advance_effect (s : SimState) (a : Nat)
    (h : s.currentStepIndex < scenarioSteps.length - 1)
    (hArr : s.memoryArr = seedRefs)
    (hHeap : s.heap.length = INITIAL_MEMORY.length) :
    (handleNext s).currentStepIndex = s.currentStepIndex + 1 ∧
    memContentAt (handleNext s) a =
      match lastUpdateValue (stepUpdates (s.currentStepIndex + 1)) a with
      | some v => (memContentAt s a).map (fun _ => v)
      | none => memContentAt s a := by
  refine ⟨handleNext_index s h, ?_⟩
  have e1 : memContentAt (handleNext s) a = lookupContent ((handleNext s).heap) a := by
    unfold memContentAt lookupContent
    rw [handleNext_arrEq, hArr]
  have e2 : memContentAt s a = lookupContent s.heap a := by
    unfold memContentAt lookupContent
    rw [hArr]
  rw [e1, handleNext_heap s h, hArr, lookupContent_applyUpdates _ s.heap hHeap a]
  simp only [e2]

/-- Witness for C5 at the reachable position-17 state and address 12: the
upcoming STORE step overwrites the cell's content with "8". -/
theorem c5_advance_effect_witness :
    ((runActions (List.replicate 17 SimAction.next)).currentStepIndex < scenarioSteps.length - 1 ∧
     (runActions (List.replicate 17 SimAction.next)).memoryArr = seedRefs ∧
     (runActions (List.replicate 17 SimAction.next)).heap.length = INITIAL_MEMORY.length) ∧
    ((handleNext (runActions (List.replicate 17 SimAction.next))).currentStepIndex =
        (runActions (List.replicate 17 SimAction.next)).currentStepIndex + 1 ∧
     memContentAt (handleNext (runActions (List.replicate 17 SimAction.next))) 12 =
       match lastUpdateValue
           (stepUpdates ((runActions (List.replicate 17 SimAction.next)).currentStepIndex + 1))
           12 with
       | some v =>
           (memContentAt (runActions (List.replicate 17 SimAction.next)) 12).map (fun _ => v)
       | none => memContentAt (runActions (List.replicate 17 SimAction.next)) 12) :=
  ⟨⟨by decide, by decide, by decide⟩,
   c5_advance_effect (runActions (List.replicate 17 SimAction.next)) 12
     (by decide) (by decide) (by decide)⟩

/-- Claim C9 (confirmed): on every step of the script, the per-cell
highlighting condition of the view (`isAddressed || isTarget`) holds for a
cell exactly when the claim's three-clause predicate does: address-bus match
on the address string (transfer from `PC` or `CU`, or active address bus),
data-bus match on the content (transfer from or to `Memory`), or membership
of the cell's address in the step's `memoryUpdates`. -/
theorem c9_bus_targeting_matches_claim (st : Step) (hst : st ∈ scenarioSteps)
    (cell : MemoryCell) :
    cellHighlighted st cell = true ↔ claimBusTargeting st cell = true := by
  have hst' : st = step0 ∨ st = step1 ∨ st = step2 ∨ st = step3 ∨ st = step4 ∨
      st = step5 ∨ st = step6 ∨ st = step7 ∨ st = step8 ∨ st = step9 ∨
      st = step10 ∨ st = step11 ∨ st = step12 ∨ st = step13 ∨ st = step14 ∨
      st = step15 ∨ st = step16 ∨ st = step17 ∨ st = step18 ∨ st = step19 := by
    simpa [scenarioSteps] using hst
  rcases hst' with rfl | rfl | rfl | rfl | rfl | rfl | rfl | rfl | rfl | rfl |
    rfl | rfl | rfl | rfl | rfl | rfl | rfl | rfl | rfl | rfl <;>
  simp [cellHighlighted, isAddressed, isTarget, isActive, claimBusTargeting,
    step0, step1, step2, step3, step4, step5, step6, step7, step8, step9,
    step10, step11, step12, step13, step14, step15, step16, step17, step18,
    step19] <;>
  tauto

/-- Witness for C9 at the STORE step and the authored result cell. -/
theorem c9_bus_targeting_matches_claim_witness :
    step18 ∈ scenarioSteps ∧
    (cellHighlighted step18 ⟨12, "0", CellType.data, some "結果格納用"⟩ = true ↔
     claimBusTargeting step18 ⟨12, "0", CellType.data, some "結果格納用"⟩ = true) :=
  ⟨by simp [scenarioSteps],
   c9_bus_targeting_matches_claim step18 (by simp [scenarioSteps]) ⟨12, "0", CellType.data, some "結果格納用"⟩⟩

end CpuSim
